import Mathlib

/-!
Verification of the oral-exam voice agent (agent.py, exam_db_driver.py).

The session controller in `agent.py` keeps a mutable `ExamState` and reacts
to three kinds of events: inbound data packets (`handle_data_received`),
utterance-committed events (`on_user_speech_committed`, which calls
`ask_next_question`), and a startup watchdog loop polling `data_received`.
We embed the controller as pure functions from state to state paired with
the list of utterances spoken during the handler (calls to `agent.say`,
in order; the `allow_interruptions` flag of `agent.say` is not modelled,
no property refers to it).  Spoken messages are modelled as an inductive
`Utterance` carrying exactly the interpolated data of the source f-strings;
`Utterance.render` produces the exact source text.
-/

namespace ExamAgent

/-- `ExamQuestion` dataclass of exam_db_driver.py: a single question text. -/
structure ExamQuestion where
  text : String
  deriving Repr, DecidableEq

/-- `Exam` dataclass of exam_db_driver.py. -/
structure Exam where
  exam_id : String
  name : String
  questions : List ExamQuestion
  duration : Int
  difficulty : String
  deriving Repr, DecidableEq

/-- A raw exam document as returned by the Mongo `find_one` call:
`_id` is always present on a matched document; the other fields are
optional and defaulted by `get_exam_by_id`.  Each entry of `questions`
is the optional `text` field of one question document. -/
structure ExamRecord where
  id : String
  name : Option String
  questions : Option (List (Option String))
  duration : Option Int
  difficulty : Option String
  deriving Repr, DecidableEq

/-- `ObjectId.is_valid` on a string id: 24 characters, all hexadecimal. -/
def isValidObjectId (s : String) : Bool :=
  s.length == 24 &&
    s.data.all (fun c => c.isDigit || ('a' ≤ c && c ≤ 'f') || ('A' ≤ c && c ≤ 'F'))

/-- The `Exam(...)` construction in `get_exam_by_id`, applying the source
defaults: name "Unnamed Exam", questions `[]` with each text defaulted to
`""`, duration 0, difficulty "Medium". -/
def examOfRecord (record : ExamRecord) : Exam :=
  { exam_id := record.id
  , name := record.name.getD "Unnamed Exam"
  , questions := (record.questions.getD []).map (fun t => { text := t.getD "" })
  , duration := record.duration.getD 0
  , difficulty := record.difficulty.getD "Medium" }

/-- `ExamDBDriver.get_exam_by_id`.  The Mongo backend is abstracted as
`findOne : String → Except Unit (Option ExamRecord)`: `.error ()` is any
exception raised by the query (connectivity fault etc., swallowed by the
`except` clause), `.ok none` is "no matching document".  Invalid id
format short-circuits to `none` before the query. -/
def get_exam_by_id (findOne : String → Except Unit (Option ExamRecord))
    (exam_id : String) : Option Exam :=
  if !isValidObjectId exam_id then none
  else
    match findOne exam_id with
    | .error _ => none
    | .ok none => none
    | .ok (some record) => some (examOfRecord record)

/-- One call to `agent.say`, tagged by which source f-string it is, carrying
the interpolated values. `render` recovers the exact source text. -/
inductive Utterance where
  | welcome (name : String) (questionCount : Nat) (duration : Int) (difficulty : String)
  | question (displayIndex : Nat) (text : String)
  | closing
  | invalidData
  | loadFailed
  | reminder
  deriving Repr, DecidableEq

/-- The exact text handed to `agent.say` for each utterance. -/
def Utterance.render : Utterance → String
  | .welcome name n dur diff =>
      "Welcome to the Coral AI Exam Platform! I'm your AI instructor. " ++
      "We'll now begin the " ++ name ++ " exam, which contains " ++
      toString n ++ " questions. The exam duration is " ++ toString dur ++
      " minutes and has a " ++ diff ++ " difficulty level. " ++
      "Let's start with the first question."
  | .question i t => "Question " ++ toString i ++ ": " ++ t
  | .closing =>
      "Thank you for completing the exam. This concludes our session. Good luck with your results!"
  | .invalidData => "Exam data was invalid. Please try again."
  | .loadFailed => "Sorry, I couldn't load the exam. Please try again."
  | .reminder => "Waiting for exam data. Please ensure it has been sent to the room."

/-- The `ExamState` class defined inside `entrypoint` in agent.py. -/
structure ExamState where
  exam : Option Exam
  current_question_idx : Nat
  questions_asked : Nat
  data_received : Bool
  exam_completed : Bool
  deriving Repr, DecidableEq

/-- `ExamState.__init__`: the state at session start. -/
def ExamState.start : ExamState :=
  { exam := none
  , current_question_idx := 0
  , questions_asked := 0
  , data_received := false
  , exam_completed := false }

/-- `ask_next_question` in agent.py: guards checked in source order
(data_received, exam present, exam_completed, index in range), then either
speaks question `current_question_idx + 1` and advances both counters, or
marks the exam completed and speaks the closing message. -/
def ask_next_question (s : ExamState) : ExamState × List Utterance :=
  if !s.data_received then (s, [])
  else
    match s.exam with
    | none => (s, [Utterance.invalidData])
    | some exam =>
      if s.exam_completed then (s, [])
      else if s.current_question_idx < exam.questions.length then
        ({ s with questions_asked := s.questions_asked + 1
                , current_question_idx := s.current_question_idx + 1 },
         [Utterance.question (s.current_question_idx + 1)
            ((exam.questions.getD s.current_question_idx { text := "" }).text)])
      else
        ({ s with exam_completed := true }, [Utterance.closing])

/-- The fields of a successfully decoded inbound JSON message that
`handle_data_received` reads: `message_json.get("type")` and
`message_json.get("data", \x7b\x7d).get("examId")`.  A missing or
non-string field is `none`. -/
structure InboundMsg where
  type : Option String
  examId : Option String
  deriving Repr, DecidableEq

/-- The decode outcome of one inbound `rtc.DataPacket`:
`empty` when `data.data` is falsy (handler body skipped), `malformed`
when UTF-8 decoding or `json.loads` raises (caught by the handler's
`except` clauses), `ok` when a JSON object was obtained. -/
inductive RawPayload where
  | empty
  | malformed
  | ok (msg : InboundMsg)
  deriving Repr, DecidableEq

/-- `handle_data_received` in agent.py.  The repository is abstracted as
`db : String → Option Exam` (the behaviour of `db_driver.get_exam_by_id`).
On a decoded message, `data_received` is set before interpretation; on a
QUESTIONS message with a truthy examId the exam field is assigned the
repository result (also when that result is `None`), then either the
welcome message is spoken and `ask_next_question` invoked, or the
load-failure message is spoken. -/
def handle_data_received (db : String → Option Exam) (p : RawPayload)
    (s : ExamState) : ExamState × List Utterance :=
  match p with
  | .empty => (s, [])
  | .malformed => (s, [])
  | .ok msg =>
    let s1 := { s with data_received := true }
    if msg.type == some "QUESTIONS" then
      match msg.examId with
      | none => (s1, [])
      | some eid =>
        if eid == "" then (s1, [])
        else
          match db eid with
          | some exam =>
            let s2 := { s1 with exam := some exam }
            let w := Utterance.welcome exam.name exam.questions.length
                       exam.duration exam.difficulty
            let r := ask_next_question s2
            (r.1, w :: r.2)
          | none => ({ s1 with exam := none }, [Utterance.loadFailed])
    else (s1, [])

/-- `on_user_speech_committed` in agent.py: after the pacing delay, invoke
`ask_next_question` unless the exam is completed. -/
def on_user_speech_committed (s : ExamState) : ExamState × List Utterance :=
  if s.exam_completed then (s, []) else ask_next_question s

/-- The two event sources that mutate the session state. -/
inductive Event where
  | dataReceived (p : RawPayload)
  | userSpeechCommitted
  deriving Repr, DecidableEq

/-- Dispatch of one event to its handler. -/
def step (db : String → Option Exam) (s : ExamState) : Event → ExamState × List Utterance
  | .dataReceived p => handle_data_received db p s
  | .userSpeechCommitted => on_user_speech_committed s

/-- Run a sequence of events from a state, collecting all spoken output. -/
def run (db : String → Option Exam) (s : ExamState) :
    List Event → ExamState × List Utterance
  | [] => (s, [])
  | ev :: rest =>
    let r := step db s ev
    let r2 := run db r.1 rest
    (r2.1, r.2 ++ r2.2)

/-- Iterate `ask_next_question` `n` times, collecting all spoken output. -/
def iterAsk : Nat → ExamState → ExamState × List Utterance
  | 0, s => (s, [])
  | n + 1, s =>
    let r := ask_next_question s
    let r2 := iterAsk n r.1
    (r2.1, r.2 ++ r2.2)

/-- The session state right after `exam_state.exam = db_driver.get_exam_by_id(...)`
succeeds in a fresh session: data received, exam stored, both counters 0. -/
def loadedState (e : Exam) : ExamState :=
  { exam := some e
  , current_question_idx := 0
  , questions_asked := 0
  , data_received := true
  , exam_completed := false }

/-- The startup watchdog loop at the end of `entrypoint`.  `exam_state.data_received`
is a concurrently-written flag; the loop reads it once per while-condition and
once more in the `checks == 3` guard, so we model it as a stream `dr` indexed by
the sequential read number `r`.  `rem` is `max_checks - checks` (12 initially).
Returns the spoken reminders and the final value of `checks`. -/
def watchdogLoop (dr : Nat → Bool) : Nat → Nat → Nat → List Utterance × Nat
  | 0, checks, _ => ([], checks)
  | rem + 1, checks, r =>
    if dr r then ([], checks)
    else
      let c := checks + 1
      if c = 3 then
        let rest := watchdogLoop dr rem c (r + 2)
        (if dr (r + 1) = false then Utterance.reminder :: rest.1 else rest.1, rest.2)
      else
        let rest := watchdogLoop dr rem c (r + 1)
        (rest.1, rest.2)

/-- The watchdog as started by `entrypoint`: `checks = 0`, `max_checks = 12`. -/
def watchdog (dr : Nat → Bool) : List Utterance × Nat :=
  watchdogLoop dr 12 0 0

/-- The `currentQuestionIndex ≤ len(questions)` part of the spec invariant,
trivially true while no exam is loaded. -/
def examBound (s : ExamState) : Prop :=
  match s.exam with
  | none => True
  | some e => s.current_question_idx ≤ e.questions.length

/-- The spec's session-state invariant:
`questionsAsked ≤ currentQuestionIndex ≤ len(questions)`. -/
def Inv (s : ExamState) : Prop :=
  s.questions_asked ≤ s.current_question_idx ∧ examBound s

/-- The session state after `j` questions of exam `e` have been asked in a
fresh session: both counters equal `j`. -/
def midState (e : Exam) (j : Nat) : ExamState :=
  { exam := some e
  , current_question_idx := j
  , questions_asked := j
  , data_received := true
  , exam_completed := false }

/-- A two-question exam, for the end-to-end scenario. -/
def exam2 : Exam :=
  { exam_id := "e1", name := "Algebra"
  , questions := [{ text := "Q1text" }, { text := "Q2text" }]
  , duration := 30, difficulty := "Easy" }

/-- A repository that returns `exam2` for every id. -/
def db2 : String → Option Exam := fun _ => some exam2

/-- Valid QUESTIONS message followed by three utterance-committed events. -/
def evs2 : List Event :=
  [Event.dataReceived (RawPayload.ok { type := some "QUESTIONS", examId := some "e1" }),
   Event.userSpeechCommitted, Event.userSpeechCommitted, Event.userSpeechCommitted]

/-- A one-question exam. -/
def examA : Exam :=
  { exam_id := "a", name := "A", questions := [{ text := "QA" }]
  , duration := 10, difficulty := "Easy" }

/-- A zero-question exam. -/
def examB : Exam :=
  { exam_id := "b", name := "B", questions := []
  , duration := 10, difficulty := "Easy" }

/-- A repository holding `examA` under id "a" and `examB` under any other id. -/
def dbAB : String → Option Exam := fun id => if id == "a" then some examA else some examB

/-- QUESTIONS message for exam id "a". -/
def pA : RawPayload := RawPayload.ok { type := some "QUESTIONS", examId := some "a" }

/-- QUESTIONS message for exam id "b". -/
def pB : RawPayload := RawPayload.ok { type := some "QUESTIONS", examId := some "b" }

/-- A monotone flag stream that becomes true from read 4 on, for exercising
the watchdog. -/
def wdF : Nat → Bool := fun n => decide (4 ≤ n)

/-- A bare exam document carrying only its id (all defaulted fields absent). -/
def recW : ExamRecord :=
  { id := "0123456789abcdef01234567", name := none, questions := none
  , duration := none, difficulty := none }

/-- A well-formed 24-hex-character ObjectId string. -/
def hex24 : String := "0123456789abcdef01234567"

/-- A completed session over `examA`: its one question asked, exam done. -/
def doneState : ExamState :=
  { exam := some examA, current_question_idx := 1, questions_asked := 1
  , data_received := true, exam_completed := true }

end ExamAgent

namespace ExamAgent

lemma ask_nodata (s : ExamState) (h : s.data_received = false) :
    ask_next_question s = (s, []) := by
  simp [ask_next_question, h]

lemma ask_no_exam_eq (s : ExamState) (hd : s.data_received = true)
    (he : s.exam = none) :
    ask_next_question s = (s, [Utterance.invalidData]) := by
  simp [ask_next_question, hd, he]

lemma ask_completed_eq (s : ExamState) (e : Exam) (hd : s.data_received = true)
    (he : s.exam = some e) (hc : s.exam_completed = true) :
    ask_next_question s = (s, []) := by
  simp [ask_next_question, hd, he, hc]

lemma ask_question_eq (s : ExamState) (e : Exam) (hd : s.data_received = true)
    (he : s.exam = some e) (hc : s.exam_completed = false)
    (hi : s.current_question_idx < e.questions.length) :
    ask_next_question s =
      ({ s with questions_asked := s.questions_asked + 1
              , current_question_idx := s.current_question_idx + 1 },
       [Utterance.question (s.current_question_idx + 1)
          ((e.questions.getD s.current_question_idx { text := "" }).text)]) := by
  simp [ask_next_question, hd, he, hc, hi]

lemma ask_exhausted_eq (s : ExamState) (e : Exam) (hd : s.data_received = true)
    (he : s.exam = some e) (hc : s.exam_completed = false)
    (hi : ¬ s.current_question_idx < e.questions.length) :
    ask_next_question s = ({ s with exam_completed := true }, [Utterance.closing]) := by
  simp [ask_next_question, hd, he, hc, hi]

/-- `ask_next_question` never changes `exam` or `data_received`. -/
lemma ask_frame (s : ExamState) :
    (ask_next_question s).1.exam = s.exam ∧
    (ask_next_question s).1.data_received = s.data_received := by
  rcases s with ⟨exam, idx, asked, data, comp⟩
  cases data <;> cases exam <;> cases comp <;>
    simp [ask_next_question] <;> split <;> simp

/-- When the exam is already completed, `ask_next_question` leaves the state
unchanged and speaks no question (at most the invalid-data message). -/
lemma ask_completed_state (s : ExamState) (h : s.exam_completed = true) :
    (ask_next_question s).1 = s ∧
      ((ask_next_question s).2 = [] ∨
       (ask_next_question s).2 = [Utterance.invalidData]) := by
  cases hd : s.data_received
  · simp [ask_nodata s hd]
  · cases he : s.exam
    · simp [ask_no_exam_eq s hd he]
    · simp [ask_completed_eq s _ hd he h]

/-- `exam_completed` only transitions to true together with the closing
message being spoken. -/
lemma ask_new_completed (s : ExamState) (h0 : s.exam_completed = false)
    (h1 : (ask_next_question s).1.exam_completed = true) :
    (ask_next_question s).2 = [Utterance.closing] := by
  cases hd : s.data_received
  · rw [ask_nodata s hd] at h1 ⊢; rw [h0] at h1; exact absurd h1 (by simp)
  · cases he : s.exam
    · rw [ask_no_exam_eq s hd he] at h1 ⊢; rw [h0] at h1; exact absurd h1 (by simp)
    · rename_i e
      by_cases hi : s.current_question_idx < e.questions.length
      · rw [ask_question_eq s e hd he h0 hi] at h1 ⊢
        simp at h1; rw [h0] at h1; exact absurd h1 (by simp)
      · rw [ask_exhausted_eq s e hd he h0 hi]

/-- `ask_next_question` preserves the session-state invariant. -/
lemma ask_inv (s : ExamState) (h : Inv s) : Inv (ask_next_question s).1 := by
  cases hd : s.data_received
  · rw [ask_nodata s hd]; exact h
  · cases he : s.exam
    · rw [ask_no_exam_eq s hd he]; exact h
    · rename_i e
      cases hc : s.exam_completed
      · by_cases hi : s.current_question_idx < e.questions.length
        · rw [ask_question_eq s e hd he hc hi]
          refine ⟨Nat.succ_le_succ h.1, ?_⟩
          simp [examBound, he]
          omega
        · rw [ask_exhausted_eq s e hd he hc hi]
          refine ⟨h.1, ?_⟩
          have hb := h.2
          simp [examBound, he] at hb ⊢
          exact hb
      · rw [(ask_completed_state s hc).1]; exact h

/-- A decoded QUESTIONS message with a truthy examId and a repository hit:
the handler stores the exam, speaks the welcome, then asks. -/
lemma handle_hit (db : String → Option Exam) (s : ExamState) (eid : String)
    (e : Exam) (heid : eid ≠ "") (hdb : db eid = some e) :
    handle_data_received db (.ok { type := some "QUESTIONS", examId := some eid }) s =
      ((ask_next_question { s with data_received := true, exam := some e }).1,
       Utterance.welcome e.name e.questions.length e.duration e.difficulty ::
         (ask_next_question { s with data_received := true, exam := some e }).2) := by
  simp [handle_data_received, heid, hdb]

/-- A decoded QUESTIONS message with a truthy examId and a repository miss:
the handler clears the exam and speaks the load-failure message. -/
lemma handle_miss (db : String → Option Exam) (s : ExamState) (eid : String)
    (heid : eid ≠ "") (hdb : db eid = none) :
    handle_data_received db (.ok { type := some "QUESTIONS", examId := some eid }) s =
      ({ s with data_received := true, exam := none }, [Utterance.loadFailed]) := by
  simp [handle_data_received, heid, hdb]

/-- Any successfully decoded message sets `data_received`. -/
lemma handle_ok_data (db : String → Option Exam) (msg : InboundMsg) (s : ExamState) :
    ((handle_data_received db (.ok msg) s).1).data_received = true := by
  rcases msg with ⟨ty, eid⟩
  by_cases hty : (ty == some "QUESTIONS") = true
  · cases eid
    · simp [handle_data_received, hty]
    · rename_i eid
      by_cases heid : (eid == "") = true
      · simp [handle_data_received, hty, heid]
      · cases hdb : db eid
        · simp [handle_data_received, hty, heid, hdb]
        · rename_i e
          simp only [handle_data_received, hty, heid, hdb, if_true, if_false,
            Bool.false_eq_true]
          have := (ask_frame { s with data_received := true, exam := some e }).2
          simpa using this
  · simp [handle_data_received, hty]

/-- `iterAsk` through the questions of a loaded exam: starting with both
counters at `j`, `n` further invocations (with `j + n` within range) speak
questions `j+1 .. j+n` in order and advance both counters to `j + n`. -/
lemma iterAsk_mid (e : Exam) : ∀ (n j : Nat), j + n ≤ e.questions.length →
    iterAsk n (midState e j) =
      (midState e (j + n),
       (List.range n).map (fun k =>
         Utterance.question (j + k + 1)
           ((e.questions.getD (j + k) { text := "" }).text))) := by
  intro n
  induction n with
  | zero => intro j _; simp [iterAsk]
  | succ n ih =>
    intro j hj
    have hlt : (midState e j).current_question_idx < e.questions.length := by
      simp [midState]; omega
    have h1 := ask_question_eq (midState e j) e rfl rfl rfl hlt
    have hmid : ({ midState e j with
        questions_asked := (midState e j).questions_asked + 1
      , current_question_idx := (midState e j).current_question_idx + 1 }) =
        midState e (j + 1) := rfl
    have h2 := ih (j + 1) (by omega)
    simp only [iterAsk, h1, hmid, h2, Prod.mk.injEq]
    refine ⟨by congr 1; omega, ?_⟩
    rw [List.range_succ_eq_map]
    simp only [List.map_cons, List.map_map, List.singleton_append, List.cons_append,
      List.nil_append, Nat.add_zero]
    congr 1
    apply List.map_congr_left
    intro a _
    simp only [Function.comp, Nat.succ_eq_add_one]
    rw [show j + 1 + a = j + (a + 1) from by omega]

/-- One unfolding of the watchdog loop. -/
lemma watchdogLoop_succ (dr : Nat → Bool) (rem checks r : Nat) :
    watchdogLoop dr (rem + 1) checks r =
      if dr r then ([], checks)
      else if checks + 1 = 3 then
        ((if dr (r + 1) = false
          then Utterance.reminder :: (watchdogLoop dr rem (checks + 1) (r + 2)).1
          else (watchdogLoop dr rem (checks + 1) (r + 2)).1),
         (watchdogLoop dr rem (checks + 1) (r + 2)).2)
      else watchdogLoop dr rem (checks + 1) (r + 1) := rfl

/-- The loop performs at most `rem` further checks. -/
lemma watchdogLoop_checks_le (dr : Nat → Bool) :
    ∀ rem checks r, (watchdogLoop dr rem checks r).2 ≤ checks + rem := by
  intro rem
  induction rem with
  | zero => intro checks r; simp [watchdogLoop]
  | succ rem ih =>
    intro checks r
    rw [watchdogLoop_succ]
    cases hdr : dr r
    · rw [if_neg (by simp [hdr])]
      by_cases h3 : checks + 1 = 3
      · rw [if_pos h3]
        show (watchdogLoop dr rem (checks + 1) (r + 2)).2 ≤ checks + (rem + 1)
        have := ih (checks + 1) (r + 2)
        omega
      · rw [if_neg h3]
        have := ih (checks + 1) (r + 1)
        omega
    · show checks ≤ checks + (rem + 1)
      omega

/-- Once three checks have happened, the loop never speaks again. -/
lemma watchdogLoop_tail_empty (dr : Nat → Bool) :
    ∀ rem checks r, 3 ≤ checks → (watchdogLoop dr rem checks r).1 = [] := by
  intro rem
  induction rem with
  | zero => intro checks r _; simp [watchdogLoop]
  | succ rem ih =>
    intro checks r hc
    rw [watchdogLoop_succ]
    cases hdr : dr r
    · simp only [Bool.false_eq_true, if_false]
      have h3 : ¬ checks + 1 = 3 := by omega
      simp only [h3, if_false]
      exact ih (checks + 1) (r + 1) (by omega)
    · simp

/-- With a monotone (set-once) flag that is true at read `k`, the loop
performs at most `max checks k` checks in total. -/
lemma watchdogLoop_stop (dr : Nat → Bool)
    (mono : ∀ i j, i ≤ j → dr i = true → dr j = true)
    (k : Nat) (hk : dr k = true) :
    ∀ rem checks r, checks ≤ r → (watchdogLoop dr rem checks r).2 ≤ max checks k := by
  intro rem
  induction rem with
  | zero => intro checks r _; simp [watchdogLoop]
  | succ rem ih =>
    intro checks r hcr
    rw [watchdogLoop_succ]
    cases hdr : dr r
    · rw [if_neg (by simp [hdr])]
      have hrk : r < k := by
        by_contra hge
        have := mono k r (by omega) hk
        rw [this] at hdr
        exact absurd hdr (by simp)
      by_cases h3 : checks + 1 = 3
      · rw [if_pos h3]
        show (watchdogLoop dr rem (checks + 1) (r + 2)).2 ≤ max checks k
        have := ih (checks + 1) (r + 2) (by omega)
        have hmax : max (checks + 1) k = k := by omega
        omega
      · rw [if_neg h3]
        have := ih (checks + 1) (r + 1) (by omega)
        have hmax : max (checks + 1) k = k := by omega
        omega
    · show checks ≤ max checks k
      omega

/-- The watchdog's spoken output, as a function of the four reads made while
reaching the third check. -/
lemma watchdog_out (dr : Nat → Bool) :
    (watchdog dr).1 =
      if dr 0 = false ∧ dr 1 = false ∧ dr 2 = false ∧ dr 3 = false
      then [Utterance.reminder] else [] := by
  unfold watchdog
  rw [show (12 : Nat) = 11 + 1 from rfl, watchdogLoop_succ]
  cases h0 : dr 0
  · rw [if_neg (by simp [h0]), if_neg (by omega),
      show (11 : Nat) = 10 + 1 from rfl, watchdogLoop_succ]
    cases h1 : dr 1
    · rw [if_neg (by simp [h1]), if_neg (by omega),
        show (10 : Nat) = 9 + 1 from rfl, watchdogLoop_succ]
      cases h2 : dr 2
      · rw [if_neg (by simp [h2]), if_pos (by omega)]
        rw [watchdogLoop_tail_empty dr 9 (0 + 1 + 1 + 1) (2 + 2) (by omega)]
        cases h3 : dr 3
        · simp [h0, h1, h2, h3]
        · simp [h0, h1, h2, h3]
      · simp
    · simp
  · simp

/-- Every successfully decoded message drives the handler into one of three
shapes: set `data_received` and stop; repository miss; repository hit
followed by the welcome message and one `ask_next_question`. -/
lemma handle_ok_shape (db : String → Option Exam) (msg : InboundMsg) (s : ExamState) :
    handle_data_received db (.ok msg) s = ({ s with data_received := true }, [])
    ∨ handle_data_received db (.ok msg) s =
        ({ s with data_received := true, exam := none }, [Utterance.loadFailed])
    ∨ ∃ e : Exam, (∃ id, db id = some e) ∧
        handle_data_received db (.ok msg) s =
          ((ask_next_question { s with data_received := true, exam := some e }).1,
           Utterance.welcome e.name e.questions.length e.duration e.difficulty ::
             (ask_next_question { s with data_received := true, exam := some e }).2) := by
  rcases msg with ⟨ty, eid⟩
  by_cases hty : (ty == some "QUESTIONS") = true
  · have hty2 : ty = some "QUESTIONS" := by simpa using hty
    subst hty2
    cases eid with
    | none => left; simp [handle_data_received]
    | some eid =>
      by_cases heid : eid = ""
      · left; simp [handle_data_received, heid]
      · cases hdb : db eid with
        | none => right; left; exact handle_miss db s eid heid hdb
        | some e => right; right; exact ⟨e, ⟨eid, hdb⟩, handle_hit db s eid e heid hdb⟩
  · left; simp [handle_data_received, hty]

/-- C4: the message handler never raises past itself: an empty payload or a
UTF-8/JSON decode failure leaves the whole session state (in particular
`data_received`) unchanged at its prior value and speaks nothing, while every
successfully decoded payload sets `data_received = true`, whatever its type
field or contents. -/
theorem handle_data_received_error_contract :
    ∀ (db : String → Option Exam) (s : ExamState),
      handle_data_received db .empty s = (s, [])
      ∧ handle_data_received db .malformed s = (s, [])
      ∧ ∀ msg : InboundMsg,
          ((handle_data_received db (.ok msg) s).1).data_received = true :=
  fun db s => ⟨rfl, rfl, fun msg => handle_ok_data db msg s⟩

/-- C5: for every QUESTIONS message whose examId the repository misses, the
handler speaks exactly one generic failure message and leaves
`SessionState.exam` absent afterwards — for every prior session state,
including one where an exam was already loaded. -/
theorem repo_miss_single_failure_message :
    ∀ (db : String → Option Exam) (s : ExamState) (eid : String),
      eid ≠ "" → db eid = none →
      handle_data_received db (.ok { type := some "QUESTIONS", examId := some eid }) s
          = ({ s with data_received := true, exam := none }, [Utterance.loadFailed])
      ∧ Utterance.render .loadFailed = "Sorry, I couldn't load the exam. Please try again." :=
  fun db s eid heid hdb => ⟨handle_miss db s eid heid hdb, rfl⟩

theorem repo_miss_single_failure_message_witness :
    handle_data_received (fun _ => none)
        (.ok { type := some "QUESTIONS", examId := some "b" }) ExamState.start
        = ({ ExamState.start with data_received := true, exam := none },
           [Utterance.loadFailed])
      ∧ Utterance.render .loadFailed = "Sorry, I couldn't load the exam. Please try again." :=
  repo_miss_single_failure_message (fun _ => none) ExamState.start "b" (by decide) rfl

/-- C6 counterexample: in the initial session state the exam is absent, yet
invoking ask-next-question speaks nothing at all (the `data_received` guard
fires first), refuting "always speaks exactly the fixed invalid-data message,
exactly once per invocation" for states with the exam absent. -/
theorem ask_exam_absent_cex :
    ExamState.start.exam = none
    ∧ ask_next_question ExamState.start = (ExamState.start, []) :=
  ⟨rfl, rfl⟩

/-- C6 (amended): for every invocation of ask-next-question in a state where
data has been received and the exam is absent, the controller speaks exactly
the fixed message "Exam data was invalid. Please try again.", exactly once,
and never mutates the state. -/
theorem ask_exam_absent_amended :
    ∀ s : ExamState, s.data_received = true → s.exam = none →
      ask_next_question s = (s, [Utterance.invalidData])
      ∧ Utterance.render .invalidData = "Exam data was invalid. Please try again." :=
  fun s hd he => ⟨ask_no_exam_eq s hd he, rfl⟩

theorem ask_exam_absent_amended_witness :
    ask_next_question { ExamState.start with data_received := true }
        = ({ ExamState.start with data_received := true }, [Utterance.invalidData])
      ∧ Utterance.render .invalidData = "Exam data was invalid. Please try again." :=
  ask_exam_absent_amended { ExamState.start with data_received := true } rfl rfl

/-- C7: ask-next-question invoked before any data is received produces zero
speech output and leaves the entire session state unchanged. -/
theorem ask_before_data_noop :
    ∀ s : ExamState, s.data_received = false → ask_next_question s = (s, []) :=
  fun s h => ask_nodata s h

theorem ask_before_data_noop_witness :
    ask_next_question ExamState.start = (ExamState.start, []) :=
  ask_before_data_noop ExamState.start rfl

/-- C10: loading an exam with an empty questions list immediately completes
the exam on the first (automatic) ask-next-question: the handler speaks the
welcome message followed directly by the closing message, with no question
and no invalid-data message, and sets `exam_completed`. -/
theorem empty_exam_immediate_completion :
    ∀ (db : String → Option Exam) (s : ExamState) (eid : String) (e : Exam),
      eid ≠ "" → db eid = some e → e.questions = [] → s.exam_completed = false →
      handle_data_received db (.ok { type := some "QUESTIONS", examId := some eid }) s
          = ({ s with data_received := true, exam := some e, exam_completed := true },
             [Utterance.welcome e.name e.questions.length e.duration e.difficulty,
              Utterance.closing]) := by
  intro db s eid e heid hdb hq hc
  rw [handle_hit db s eid e heid hdb]
  rw [ask_exhausted_eq { s with data_received := true, exam := some e } e rfl rfl hc
    (by simp [hq])]

theorem empty_exam_immediate_completion_witness :
    handle_data_received (fun _ => some examB)
        (.ok { type := some "QUESTIONS", examId := some "b" }) ExamState.start
      = ({ ExamState.start with
            data_received := true
          , exam := some examB
          , exam_completed := true },
         [Utterance.welcome examB.name examB.questions.length examB.duration
            examB.difficulty,
          Utterance.closing]) :=
  empty_exam_immediate_completion (fun _ => some examB) ExamState.start "b" examB
    (by decide) rfl rfl rfl

/-- C1: for every loaded exam with N ≥ 1 questions, N invocations of
ask-next-question speak the questions in strict original order 1..N, each
rendered with the 1-based "Question i:" prefix, the next invocation speaks
exactly the closing message and marks the exam completed; and the concrete
sequence (valid QUESTIONS message, then 3 utterance-committed events) on the
two-question exam produces welcome, question 1, question 2, closing — no
repeat, no skip. -/
theorem exam_asks_questions_in_order_then_closing :
    (∀ e : Exam, 1 ≤ e.questions.length →
      (iterAsk e.questions.length (loadedState e)).2 =
        (List.range e.questions.length).map (fun k =>
          Utterance.question (k + 1) ((e.questions.getD k { text := "" }).text))
      ∧ ask_next_question (iterAsk e.questions.length (loadedState e)).1 =
          ({ exam := some e
           , current_question_idx := e.questions.length
           , questions_asked := e.questions.length
           , data_received := true
           , exam_completed := true }, [Utterance.closing])
      ∧ ∀ i t, (Utterance.question i t).render = "Question " ++ toString i ++ ": " ++ t)
    ∧ run db2 ExamState.start evs2 =
        ({ exam := some exam2
         , current_question_idx := 2
         , questions_asked := 2
         , data_received := true
         , exam_completed := true },
         [Utterance.welcome "Algebra" 2 30 "Easy", Utterance.question 1 "Q1text",
          Utterance.question 2 "Q2text", Utterance.closing]) := by
  constructor
  · intro e _
    have h0 := iterAsk_mid e e.questions.length 0 (by omega)
    simp only [Nat.zero_add] at h0
    have hload : loadedState e = midState e 0 := rfl
    refine ⟨?_, ?_, fun i t => rfl⟩
    · rw [hload, h0]
    · rw [hload, h0]
      exact ask_exhausted_eq (midState e e.questions.length) e rfl rfl rfl
        (by simp [midState])
  · rfl

theorem exam_asks_questions_in_order_then_closing_witness :
    1 ≤ exam2.questions.length ∧
    (iterAsk exam2.questions.length (loadedState exam2)).2 =
      (List.range exam2.questions.length).map (fun k =>
        Utterance.question (k + 1) ((exam2.questions.getD k { text := "" }).text)) :=
  ⟨by decide,
   (exam_asks_questions_in_order_then_closing.1 exam2 (by decide)).1⟩

/-- C2 counterexample: the claimed invariant is not preserved by the message
handler.  After loading the one-question exam and asking its question
(a state satisfying the invariant), a second QUESTIONS message that loads the
zero-question exam leaves `current_question_idx = 1 > 0 = len(questions)`,
because the handler never resets the index when it stores a new exam. -/
theorem session_invariant_cex :
    Inv (run dbAB ExamState.start [Event.dataReceived pA]).1
    ∧ ¬ Inv (handle_data_received dbAB pB
        (run dbAB ExamState.start [Event.dataReceived pA]).1).1 := by
  constructor
  · show Inv { exam := some examA, current_question_idx := 1, questions_asked := 1
             , data_received := true, exam_completed := false }
    exact ⟨Nat.le_refl 1, by simp [examBound, examA]⟩
  · show ¬ Inv { exam := some examB, current_question_idx := 1, questions_asked := 1
               , data_received := true, exam_completed := true }
    intro h
    have hb : (1 : Nat) ≤ 0 := h.2
    omega

/-- C2 (amended): `questionsAsked ≤ currentQuestionIndex ≤ len(questions)`
holds initially and is preserved by ask-next-question and by the
utterance-committed handler unconditionally; the message handler preserves it
provided every exam the repository can return has at least
`currentQuestionIndex` questions (the handler does not reset the index when
it stores a newly loaded exam, so loading a second, shorter exam can leave
`currentQuestionIndex > len(questions)`). -/
theorem session_invariant_amended :
    Inv ExamState.start
    ∧ (∀ s, Inv s → Inv (ask_next_question s).1)
    ∧ (∀ s, Inv s → Inv (on_user_speech_committed s).1)
    ∧ (∀ (db : String → Option Exam) (p : RawPayload) (s : ExamState), Inv s →
        (∀ id e, db id = some e → s.current_question_idx ≤ e.questions.length) →
        Inv (handle_data_received db p s).1) := by
  refine ⟨⟨Nat.le_refl 0, by simp [examBound, ExamState.start]⟩, ask_inv, ?_, ?_⟩
  · intro s h
    unfold on_user_speech_committed
    cases hc : s.exam_completed
    · simpa [hc] using ask_inv s h
    · simpa [hc] using h
  · intro db p s h hdb
    cases p with
    | empty => exact h
    | malformed => exact h
    | ok msg =>
      rcases handle_ok_shape db msg s with hs | hs | ⟨e, ⟨id, hid⟩, hs⟩
      · rw [hs]; exact ⟨h.1, h.2⟩
      · rw [hs]; exact ⟨h.1, by simp [examBound]⟩
      · rw [hs]
        refine ask_inv _ ⟨h.1, ?_⟩
        show s.current_question_idx ≤ e.questions.length
        exact hdb id e hid

theorem session_invariant_amended_witness :
    Inv (ask_next_question (loadedState examA)).1
    ∧ Inv (handle_data_received dbAB pA ExamState.start).1 :=
  ⟨session_invariant_amended.2.1 (loadedState examA)
     ⟨Nat.le_refl 0, by simp [examBound, loadedState, examA]⟩,
   session_invariant_amended.2.2.2 dbAB pA ExamState.start
     ⟨Nat.le_refl 0, by simp [examBound, ExamState.start]⟩
     (fun id e _ => Nat.zero_le _)⟩

/-- C8: `get_exam_by_id` is total on every string id, validates the id format
before the query, collapses all three failure causes (invalid format, no
matching record, backend error) to the same `none` outcome, and returns an
exam exactly when the id has valid ObjectId format and the query succeeds
with a record. -/
theorem get_exam_by_id_contract :
    ∀ (findOne : String → Except Unit (Option ExamRecord)) (eid : String),
      (isValidObjectId eid = false → get_exam_by_id findOne eid = none)
      ∧ (findOne eid = .error () → get_exam_by_id findOne eid = none)
      ∧ (findOne eid = .ok none → get_exam_by_id findOne eid = none)
      ∧ (∀ record, isValidObjectId eid = true → findOne eid = .ok (some record) →
          get_exam_by_id findOne eid = some (examOfRecord record))
      ∧ ((get_exam_by_id findOne eid).isSome = true ↔
          isValidObjectId eid = true ∧ ∃ record, findOne eid = .ok (some record)) := by
  intro findOne eid
  refine ⟨?_, ?_, ?_, ?_, ?_⟩
  · intro h; simp [get_exam_by_id, h]
  · intro h
    cases hv : isValidObjectId eid
    · simp [get_exam_by_id, hv]
    · simp [get_exam_by_id, hv, h]
  · intro h
    cases hv : isValidObjectId eid
    · simp [get_exam_by_id, hv]
    · simp [get_exam_by_id, hv, h]
  · intro record hv hf; simp [get_exam_by_id, hv, hf]
  · constructor
    · intro h
      cases hv : isValidObjectId eid
      · simp [get_exam_by_id, hv] at h
      · refine ⟨rfl, ?_⟩
        cases hf : findOne eid with
        | error u => simp [get_exam_by_id, hv, hf] at h
        | ok o =>
          cases o with
          | none => simp [get_exam_by_id, hv, hf] at h
          | some record => exact ⟨record, rfl⟩
    · rintro ⟨hv, record, hf⟩
      simp [get_exam_by_id, hv, hf]

theorem get_exam_by_id_contract_witness :
    isValidObjectId hex24 = true
    ∧ get_exam_by_id (fun _ => .ok (some recW)) hex24 = some (examOfRecord recW) :=
  ⟨by decide,
   (get_exam_by_id_contract (fun _ => .ok (some recW)) hex24).2.2.2.1 recW
     (by decide) rfl⟩

/-- C3: once `exam_completed` is true, every event handler leaves the flag
true, never changes `current_question_idx` or `questions_asked`, and never
speaks a question; the flag transitions from false to true only together
with the closing message (the questions-exhausted branch of
ask-next-question); and every subsequent ask-next-question invocation with
an exam present is a strict no-op. -/
theorem exam_completed_terminal :
    (∀ (db : String → Option Exam) (s : ExamState) (ev : Event),
       s.exam_completed = true →
       (step db s ev).1.exam_completed = true
       ∧ (step db s ev).1.current_question_idx = s.current_question_idx
       ∧ (step db s ev).1.questions_asked = s.questions_asked
       ∧ ∀ i t, Utterance.question i t ∉ (step db s ev).2)
    ∧ (∀ (db : String → Option Exam) (s : ExamState) (ev : Event),
       s.exam_completed = false → (step db s ev).1.exam_completed = true →
       Utterance.closing ∈ (step db s ev).2)
    ∧ (∀ s : ExamState, s.exam_completed = true → s.exam ≠ none →
       ask_next_question s = (s, [])) := by
  refine ⟨?_, ?_, ?_⟩
  · intro db s ev h
    cases ev with
    | userSpeechCommitted =>
      have e1 : step db s .userSpeechCommitted = (s, []) := by
        simp [step, on_user_speech_committed, h]
      rw [e1]
      exact ⟨h, rfl, rfl, by simp⟩
    | dataReceived p =>
      cases p with
      | empty => exact ⟨h, rfl, rfl, by simp [step, handle_data_received]⟩
      | malformed => exact ⟨h, rfl, rfl, by simp [step, handle_data_received]⟩
      | ok msg =>
        simp only [step]
        rcases handle_ok_shape db msg s with hs | hs | ⟨e, _, hs⟩
        · rw [hs]; exact ⟨h, rfl, rfl, by simp⟩
        · rw [hs]; exact ⟨h, rfl, rfl, by simp⟩
        · rw [hs]
          have h2 : ({ s with data_received := true, exam := some e } :
              ExamState).exam_completed = true := h
          have hframe := ask_completed_state
            { s with data_received := true, exam := some e } h2
          rw [hframe.1]
          refine ⟨h, rfl, rfl, ?_⟩
          intro i t
          rcases hframe.2 with h3 | h3 <;> rw [h3] <;> simp
  · intro db s ev h0 h1
    cases ev with
    | userSpeechCommitted =>
      have e1 : step db s .userSpeechCommitted = ask_next_question s := by
        simp [step, on_user_speech_committed, h0]
      rw [e1] at h1 ⊢
      rw [ask_new_completed s h0 h1]
      simp
    | dataReceived p =>
      cases p with
      | empty =>
        exact absurd (show s.exam_completed = true from h1) (by simp [h0])
      | malformed =>
        exact absurd (show s.exam_completed = true from h1) (by simp [h0])
      | ok msg =>
        simp only [step] at h1 ⊢
        rcases handle_ok_shape db msg s with hs | hs | ⟨e, _, hs⟩
        · rw [hs] at h1
          exact absurd (show s.exam_completed = true from h1) (by simp [h0])
        · rw [hs] at h1
          exact absurd (show s.exam_completed = true from h1) (by simp [h0])
        · rw [hs] at h1 ⊢
          have h2 : ({ s with data_received := true, exam := some e } :
              ExamState).exam_completed = false := h0
          have h3 := ask_new_completed { s with data_received := true, exam := some e } h2
            (show (ask_next_question { s with data_received := true, exam := some e
              }).1.exam_completed = true from h1)
          rw [h3]
          simp
  · intro s h hne
    cases hd : s.data_received
    · exact ask_nodata s hd
    · cases he : s.exam with
      | none => exact absurd he hne
      | some e => exact ask_completed_eq s e hd he h

theorem exam_completed_terminal_witness :
    (step dbAB doneState Event.userSpeechCommitted).1.exam_completed = true
    ∧ Utterance.closing ∈ (step dbAB (midState examA 1) Event.userSpeechCommitted).2
    ∧ ask_next_question doneState = (doneState, []) :=
  ⟨(exam_completed_terminal.1 dbAB doneState .userSpeechCommitted rfl).1,
   exam_completed_terminal.2.1 dbAB (midState examA 1) .userSpeechCommitted rfl (by decide),
   exam_completed_terminal.2.2 doneState rfl (by simp [doneState])⟩

/-- C9: the startup watchdog performs at most 12 checks, stops polling early
once the (monotone, set-once) `data_received` flag is true, and speaks the
reminder prompt at most once over the whole session — precisely when the
flag is still false through the reads leading to and at the 3rd check.  It
takes no session state and performs no state transition. -/
theorem watchdog_contract :
    ∀ dr : Nat → Bool,
      (watchdog dr).2 ≤ 12
      ∧ ((watchdog dr).1 = [] ∨ (watchdog dr).1 = [Utterance.reminder])
      ∧ ((watchdog dr).1 = [Utterance.reminder] ↔
           dr 0 = false ∧ dr 1 = false ∧ dr 2 = false ∧ dr 3 = false)
      ∧ (∀ k, (∀ i j, i ≤ j → dr i = true → dr j = true) → dr k = true →
           (watchdog dr).2 ≤ k) := by
  intro dr
  refine ⟨?_, ?_, ?_, ?_⟩
  · have h := watchdogLoop_checks_le dr 12 0 0
    simpa [watchdog] using h
  · rw [watchdog_out]
    by_cases h : dr 0 = false ∧ dr 1 = false ∧ dr 2 = false ∧ dr 3 = false
    · rw [if_pos h]; right; rfl
    · rw [if_neg h]; left; rfl
  · rw [watchdog_out]
    by_cases h : dr 0 = false ∧ dr 1 = false ∧ dr 2 = false ∧ dr 3 = false
    · rw [if_pos h]; simpa using h
    · rw [if_neg h]; simpa using h
  · intro k mono hk
    have h := watchdogLoop_stop dr mono k hk 12 0 0 (Nat.le_refl 0)
    simpa [watchdog] using h

theorem watchdog_contract_witness :
    (watchdog wdF).1 = [Utterance.reminder] ∧ (watchdog wdF).2 ≤ 4 :=
  ⟨((watchdog_contract wdF).2.2.1).mpr (by decide),
   (watchdog_contract wdF).2.2.2 4
     (by intro i j hij hi; simp only [wdF, decide_eq_true_eq] at hi ⊢; omega)
     (by decide)⟩

end ExamAgent
